import Mathlib

/-!
Verification of the endless-horde simulation core.

The TypeScript source is embedded shallowly: JS numbers become `ℚ`
(all arithmetic in the verified fragment is exact on the inputs we
consider), in-place mutation becomes functional record update, and the
only nondeterminism (`Math.random()`) is passed in as an explicit
argument.  JS comparisons of the form `Math.sqrt d2 <= r` are embedded
as the equivalent `0 ≤ r ∧ d2 ≤ r * r` so every definition stays
computable; this equivalence over the reals is exact
(`Real.sqrt_le_left`-style monotonicity), no behaviour is changed.
-/

namespace EndlessHorde

/-- `Vector2` from `src/core/Vector2.ts`: a 2D point/velocity. -/
structure Vector2 where
  x : ℚ
  y : ℚ
deriving DecidableEq, Repr

/-- Squared distance between two vectors; `Vector2.distanceTo` in the
source returns `Math.sqrt` of this quantity. -/
def Vector2.dist2 (a b : Vector2) : ℚ :=
  (a.x - b.x) * (a.x - b.x) + (a.y - b.y) * (a.y - b.y)

/-- The comparison `a.distanceTo(b) <= r` from the source.  The source
computes `Math.sqrt (dist2 a b) <= r`; over the reals that holds iff
`0 ≤ r` and `dist2 a b ≤ r * r`, which is what we compute so the
definition stays executable over `ℚ`. -/
def Vector2.distLE (a b : Vector2) (r : ℚ) : Bool :=
  decide (0 ≤ r) && decide (Vector2.dist2 a b ≤ r * r)

/-- `PerformanceLevel` enum from `PerformanceMonitor`
(src/unnamed/part_003). -/
inductive PerformanceLevel where
  | high
  | medium
  | low
deriving DecidableEq, Repr

/-- The classification step of `PerformanceMonitor.updatePerformanceLevel`
(src/unnamed/part_003 lines 148-158): `HIGH_FPS_THRESHOLD = 50`,
`MEDIUM_FPS_THRESHOLD = 30`, `HIGH_FRAME_TIME_THRESHOLD = 20`,
`MEDIUM_FRAME_TIME_THRESHOLD = 33`.  `fps` and the rolling average
frame time are the two inputs read by the source. -/
def updatePerformanceLevel (fps avgFrameTime : ℚ) : PerformanceLevel :=
  if 50 ≤ fps ∧ avgFrameTime ≤ 20 then .high
  else if 30 ≤ fps ∧ avgFrameTime ≤ 33 then .medium
  else .low

/-- `PerformanceMonitor.getEntityUpdateFrequency`
(src/unnamed/part_003 lines 261-272). -/
def getEntityUpdateFrequency : PerformanceLevel → ℚ
  | .high => 1
  | .medium => 8 / 10
  | .low => 6 / 10

/-- `AttackConfig` from the attack system (src/unnamed/part_002). -/
structure AttackConfig where
  damage : ℚ
  range : ℚ
  cooldown : ℚ
deriving DecidableEq, Repr

/-- The `Attacker` capability from src/unnamed/part_002: position, size,
active flag and an optional last-attack timestamp (`undefined` before
the first attack, embedded as `none`). -/
structure Attacker where
  position : Vector2
  size : ℚ
  active : Bool
  lastAttackTime : Option ℚ
deriving DecidableEq, Repr

/-- The `Walker` entity (src/unnamed/part_005), restricted to the fields
the verified behaviour reads or writes: the `Entity` base fields
(position, velocity, active) plus size, health, maxHealth and the area
level.  Sprite/animation bookkeeping and the wander-AI timers are not
touched by the claims under verification and are omitted. -/
structure Walker where
  position : Vector2
  velocity : Vector2
  active : Bool
  size : ℚ
  health : ℚ
  maxHealth : ℚ
  areaLevel : ℤ
deriving DecidableEq, Repr

/-- `Walker.takeDamage` (src/unnamed/part_005 lines 224-231):
decrement health, and if it drops to 0 or below call `destroy()`
(set `active := false`) and report the walker as defeated.  Returns
the updated walker together with the boolean the source returns. -/
def Walker.takeDamage (w : Walker) (damage : ℚ) : Walker × Bool :=
  let h := w.health - damage
  if h ≤ 0 then ({ w with health := h, active := false }, true)
  else ({ w with health := h }, false)

/-- `AttackSystem.canAttack` (src/unnamed/part_002 lines 37-53): false
if either party is inactive; false if a previous attack exists and
`now - lastAttackTime < cooldown`; otherwise compare the distance with
`range + (attacker.size + target.size) / 2` (the source tests
`distance <= attackRange`, embedded via `Vector2.distLE`). -/
def AttackSystem.canAttack (a : Attacker) (t : Walker) (config : AttackConfig)
    (currentTime : ℚ) : Bool :=
  if ¬a.active ∨ ¬t.active then false
  else
    let cooldownBlocked :=
      match a.lastAttackTime with
      | some last => decide (currentTime - last < config.cooldown)
      | none => false
    if cooldownBlocked then false
    else Vector2.distLE a.position t.position
      (config.range + (a.size + t.size) / 2)

/-- `AttackSystem.performAttack` (src/unnamed/part_002 lines 56-68):
no-op returning false when `canAttack` fails; otherwise stamp
`lastAttackTime := currentTime` on the attacker, apply
`target.takeDamage(config.damage)`, and return true.  The result
carries the success flag and the updated attacker and target. -/
def AttackSystem.performAttack (a : Attacker) (t : Walker) (config : AttackConfig)
    (currentTime : ℚ) : Bool × Attacker × Walker :=
  if AttackSystem.canAttack a t config currentTime then
    let a' := { a with lastAttackTime := some currentTime }
    let t' := (t.takeDamage config.damage).1
    (true, a', t')
  else (false, a, t)

/-- `ZombieSystem.checkCollisions` (src/src/systems/ZombieSystem.ts lines
146-173), with the attacking zombie reduced to its `Attacker` fields and
its `attackConfig`.  The source walks the walker list in order, skips
inactive walkers (`continue`), performs at most one successful attack
(`break` after the first success), and when the attacked walker ends up
inactive calls `resourceManager.awardSouls(1, soulMultiplier)`, which
adds `Math.floor(1 * multiplier)` souls (src/unnamed/part_006).  The
visual defeat-effect callback carries no simulation state and is
omitted.  Returns the updated attacker, the updated walker list, and
the souls awarded during this call. -/
def ZombieSystem.checkCollisions (a : Attacker) (config : AttackConfig)
    (now soulMultiplier : ℚ) : List Walker → Attacker × List Walker × ℤ
  | [] => (a, [], 0)
  | w :: ws =>
    if w.active = false then
      let r := ZombieSystem.checkCollisions a config now soulMultiplier ws
      (r.1, w :: r.2.1, r.2.2)
    else
      let p := AttackSystem.performAttack a w config now
      if p.1 then
        (p.2.1, p.2.2 :: ws,
          if p.2.2.active = false then ⌊(1 : ℚ) * soulMultiplier⌋ else 0)
      else
        let r := ZombieSystem.checkCollisions a config now soulMultiplier ws
        (r.1, w :: r.2.1, r.2.2)

/-- Generic `ObjectPool` (src/src/core/ObjectPool.ts).  The JS array's
end — where `push` and `pop` operate — is the head of the Lean list, so
LIFO behaviour is preserved.  The in-place `resetFn(obj)` mutation
becomes the functional `resetFn : α → α`. -/
structure ObjectPool (α : Type) where
  createFn : Unit → α
  resetFn : α → α
  pool : List α
  maxSize : ℕ

/-- `ObjectPool.get` (src/src/core/ObjectPool.ts lines 20-27): pop a
pooled instance when the pool is non-empty, otherwise call `createFn`. -/
def ObjectPool.get {α : Type} (p : ObjectPool α) : α × ObjectPool α :=
  match p.pool with
  | x :: rest => (x, { p with pool := rest })
  | [] => (p.createFn (), p)

/-- `ObjectPool.release` (src/src/core/ObjectPool.ts lines 30-36): reset
the instance and push it only while the pool is below `maxSize`;
otherwise drop it. -/
def ObjectPool.release {α : Type} (p : ObjectPool α) (obj : α) : ObjectPool α :=
  if p.pool.length < p.maxSize then
    { p with pool := p.resetFn obj :: p.pool }
  else p

/-- One client call against a pool: `get()` or `release(obj)`. -/
inductive PoolOp (α : Type) where
  | get
  | release (obj : α)

/-- Interpretation of a call sequence against the pool (pool state
only; the values handed out by `get` do not feed back except through
an explicit later `release`). -/
def ObjectPool.run {α : Type} (p : ObjectPool α) : List (PoolOp α) → ObjectPool α
  | [] => p
  | .get :: ops => ObjectPool.run (p.get).2 ops
  | .release obj :: ops => ObjectPool.run (p.release obj) ops

/-- `WalkerSystem.getRandomEdgePosition` (src/src/systems/WalkerSystem.ts
lines 125-153): a random point on one of the four edges, offset by the
20-unit margin outside the boundary.  The two `Math.random()` draws are
explicit inputs: `edge` is the value of `Math.floor(Math.random() * 4)`
and `r ∈ [0,1)` is the coordinate draw. -/
def getRandomEdgePosition (canvasWidth canvasHeight : ℚ) (edge : ℕ) (r : ℚ) :
    Vector2 :=
  match edge with
  | 0 => ⟨r * canvasWidth, -20⟩
  | 1 => ⟨canvasWidth + 20, r * canvasHeight⟩
  | 2 => ⟨r * canvasWidth, canvasHeight + 20⟩
  | 3 => ⟨-20, r * canvasHeight⟩
  | _ => ⟨0, 0⟩

/-- The walker pool's reset callback (src/src/systems/WalkerSystem.ts
lines 44-52): re-activate, move to a fresh random edge spawn position,
zero the velocity, and refresh the area sprite (`updateAreaSprite`,
which stores the area id).  Health is not restored. -/
def resetWalker (canvasWidth canvasHeight : ℚ) (edge : ℕ) (r : ℚ)
    (areaId : ℤ) (w : Walker) : Walker :=
  { w with active := true,
           position := getRandomEdgePosition canvasWidth canvasHeight edge r,
           velocity := ⟨0, 0⟩,
           areaLevel := areaId }

/-- The `Zombie` entity (src/src/entities/Zombie.ts), restricted to the
fields the verified behaviour touches: the `Entity` base fields plus
size, base speed and speed.  AI-targeting, animation and attack fields
are carried by `Attacker`/`AttackConfig` where the claims need them. -/
structure Zombie where
  position : Vector2
  velocity : Vector2
  active : Bool
  size : ℚ
  baseSpeed : ℚ
  speed : ℚ
deriving DecidableEq, Repr

/-- The `Zombie` constructor (src/src/entities/Zombie.ts lines 26-44):
`baseSpeed = 60`, `speed = baseSpeed * speedMultiplier`, `size = 10`,
active, zero velocity. -/
def Zombie.mkNew (x y speedMultiplier : ℚ) : Zombie :=
  { position := ⟨x, y⟩, velocity := ⟨0, 0⟩, active := true, size := 10,
    baseSpeed := 60, speed := 60 * speedMultiplier }

/-- The zombie pool's reset callback (src/src/systems/ZombieSystem.ts
lines 49-55): re-activate, zero position and velocity, and re-apply
`updateSpeed` (`speed = baseSpeed * multiplier`,
src/src/entities/Zombie.ts lines 157-159). -/
def resetZombie (speedMultiplier : ℚ) (z : Zombie) : Zombie :=
  { z with active := true, position := ⟨0, 0⟩, velocity := ⟨0, 0⟩,
           speed := z.baseSpeed * speedMultiplier }

/-- `UpgradeManager.getMaxZombies`
(src/src/managers/SettingsManager.ts lines 392-395): base 10, +5 per
max-zombies upgrade level. -/
def UpgradeManager.getMaxZombies (maxZombiesLevel : ℕ) : ℕ :=
  10 + maxZombiesLevel * 5

/-- `UpgradeManager.getZombieSpeedMultiplier`
(src/src/managers/SettingsManager.ts lines 386-389): 1 + 0.2 per
zombie-speed upgrade level. -/
def UpgradeManager.getZombieSpeedMultiplier (speedLevel : ℕ) : ℚ :=
  1 + speedLevel * (2 / 10)

/-- The `ZombieSystem` state relevant to spawning: the zombie array,
the zombie pool, the canvas dimensions and the max-zombies upgrade
level (read through `UpgradeManager.getMaxZombies`). -/
structure ZombieSystemState where
  zombies : List Zombie
  zombiePool : ObjectPool Zombie
  canvasWidth : ℚ
  canvasHeight : ℚ
  maxZombiesLevel : ℕ

/-- `ZombieSystem.spawnZombie` (src/src/systems/ZombieSystem.ts lines
122-144): reject when the zombie array has reached
`getMaxZombies()`; otherwise clamp the requested position into bounds
with a 10-unit margin, draw a zombie from the pool, place it at the
clamped position and append it.  (`updateCanvasDimensions` on the
zombie is a no-op and `setEntityPriority` only stores a culling
priority; neither affects the fields modelled here.) -/
def ZombieSystem.spawnZombie (s : ZombieSystemState) (position : Vector2) :
    Bool × ZombieSystemState :=
  let maxZombies := UpgradeManager.getMaxZombies s.maxZombiesLevel
  if maxZombies ≤ s.zombies.length then (false, s)
  else
    let margin : ℚ := 10
    let clampedX := max margin (min (s.canvasWidth - margin) position.x)
    let clampedY := max margin (min (s.canvasHeight - margin) position.y)
    let g := s.zombiePool.get
    let zombie := { g.1 with position := ⟨clampedX, clampedY⟩ }
    (true, { s with zombies := s.zombies ++ [zombie], zombiePool := g.2 })

/-- `CullableEntity` (src/src/core/EntityCuller.ts lines 5-8): position,
active flag and an optional culling priority (`undefined` when never
set). -/
structure CullableEntity where
  position : Vector2
  active : Bool
  priority : Option ℚ
deriving DecidableEq, Repr

/-- The `PerformanceMonitor` state read by the culler
(src/unnamed/part_003): whether culling is enabled, the last reported
entity count, and the entity cap `maxEntitiesBeforeCulling`. -/
structure MonitorCullState where
  cullingEnabled : Bool
  entityCount : ℕ
  maxEntitiesBeforeCulling : ℕ
deriving DecidableEq, Repr

/-- `PerformanceMonitor.shouldCullEntities`
(src/unnamed/part_003 lines 229-231). -/
def PerformanceMonitor.shouldCullEntities (m : MonitorCullState) : Bool :=
  m.cullingEnabled && decide (m.maxEntitiesBeforeCulling < m.entityCount)

/-- JS truthiness of the optional `maxEntities` argument: `undefined`
and `0` are falsy. -/
def optTruthy : Option ℕ → Bool
  | none => false
  | some k => decide (k ≠ 0)

/-- `maxEntities || this.performanceMonitor.getMaxEntities()`
(src/src/core/EntityCuller.ts line 42). -/
def effectiveMaxCount (m : MonitorCullState) : Option ℕ → ℕ
  | some k => if k = 0 then m.maxEntitiesBeforeCulling else k
  | none => m.maxEntitiesBeforeCulling

/-- `EntityCuller.isInViewport` (src/src/core/EntityCuller.ts lines
62-68), with `VIEWPORT_MARGIN = 50`. -/
def EntityCuller.isInViewport (e : CullableEntity) (vw vh : ℚ) : Bool :=
  decide (-50 ≤ e.position.x) && decide (e.position.x ≤ vw + 50) &&
  decide (-50 ≤ e.position.y) && decide (e.position.y ≤ vh + 50)

/-- `EntityCuller.priorityCull` (src/src/core/EntityCuller.ts lines
71-103): score every entity, sort descending by score, keep the top
`maxCount`.  The source's score
`0.7 * (1 - distFromCenter / maxDist) + 0.3 * (priority || 0.5)`
computes `Math.sqrt`; since the culling-bound theorems hold for every
scoring function, the score is an explicit parameter here and the
source's score is one instance. -/
def EntityCuller.priorityCull (score : CullableEntity → ℚ)
    (entities : List CullableEntity) (maxCount : ℕ) : List CullableEntity :=
  (entities.mergeSort (fun a b => decide (score b ≤ score a))).take maxCount

/-- `EntityCuller.cullEntities` (src/src/core/EntityCuller.ts lines
31-59): return the list unchanged when the monitor does not request
culling and no (truthy) explicit max was passed; otherwise filter to
active entities, return them when within the effective cap, else filter
to the viewport (with margin) and priority-cull when still over the
cap. -/
def EntityCuller.cullEntities (m : MonitorCullState)
    (score : CullableEntity → ℚ) (entities : List CullableEntity)
    (vw vh : ℚ) (maxEntities : Option ℕ) : List CullableEntity :=
  if PerformanceMonitor.shouldCullEntities m = false ∧ optTruthy maxEntities = false then
    entities
  else
    let activeEntities := entities.filter (·.active)
    let maxCount := effectiveMaxCount m maxEntities
    if activeEntities.length ≤ maxCount then activeEntities
    else
      let viewportEntities :=
        activeEntities.filter (EntityCuller.isInViewport · vw vh)
      if maxCount < viewportEntities.length then
        EntityCuller.priorityCull score viewportEntities maxCount
      else viewportEntities

/-- `CollisionEntity` (src/src/core/CollisionSystem.ts lines 5-7): an
entity with a size, as consumed by the collision system. -/
structure CollisionEntity where
  position : Vector2
  velocity : Vector2
  size : ℚ
  active : Bool
deriving DecidableEq, Repr

/-- `CollisionSystem.applyBoundaryCollision`
(src/src/core/CollisionSystem.ts lines 65-122).  Inactive entities are
untouched.  Within the 20-unit soft boundary of each edge a velocity
force toward the interior is applied (`force * 0.016`, capped at the
full `bounceForce`); strictly beyond the hard edge (`size / 2` from the
boundary) the position is clamped to the edge and the outward velocity
component removed.  The four boundary blocks run in source order
(left, right, top, bottom), each seeing the previous block's updates. -/
def applyBoundaryCollision (e : CollisionEntity)
    (canvasWidth canvasHeight bounceForce : ℚ) : CollisionEntity :=
  if e.active = false then e
  else
    let margin := e.size / 2
    let softBoundary : ℚ := 20
    -- Left boundary
    let e1 :=
      if e.position.x < margin + softBoundary then
        let penetration := (margin + softBoundary) - e.position.x
        let force := min (penetration / softBoundary) 1 * bounceForce
        let ev : CollisionEntity :=
          { e with velocity := ⟨e.velocity.x + force * 0.016, e.velocity.y⟩ }
        if ev.position.x < margin then
          { ev with position := ⟨margin, ev.position.y⟩,
                    velocity := ⟨max 0 ev.velocity.x, ev.velocity.y⟩ }
        else ev
      else e
    -- Right boundary
    let e2 :=
      if canvasWidth - margin - softBoundary < e1.position.x then
        let penetration := e1.position.x - (canvasWidth - margin - softBoundary)
        let force := min (penetration / softBoundary) 1 * bounceForce
        let ev : CollisionEntity :=
          { e1 with velocity := ⟨e1.velocity.x - force * 0.016, e1.velocity.y⟩ }
        if canvasWidth - margin < ev.position.x then
          { ev with position := ⟨canvasWidth - margin, ev.position.y⟩,
                    velocity := ⟨min 0 ev.velocity.x, ev.velocity.y⟩ }
        else ev
      else e1
    -- Top boundary
    let e3 :=
      if e2.position.y < margin + softBoundary then
        let penetration := (margin + softBoundary) - e2.position.y
        let force := min (penetration / softBoundary) 1 * bounceForce
        let ev : CollisionEntity :=
          { e2 with velocity := ⟨e2.velocity.x, e2.velocity.y + force * 0.016⟩ }
        if ev.position.y < margin then
          { ev with position := ⟨ev.position.x, margin⟩,
                    velocity := ⟨ev.velocity.x, max 0 ev.velocity.y⟩ }
        else ev
      else e2
    -- Bottom boundary
    if canvasHeight - margin - softBoundary < e3.position.y then
      let penetration := e3.position.y - (canvasHeight - margin - softBoundary)
      let force := min (penetration / softBoundary) 1 * bounceForce
      let ev : CollisionEntity :=
        { e3 with velocity := ⟨e3.velocity.x, e3.velocity.y - force * 0.016⟩ }
      if canvasHeight - margin < ev.position.y then
        { ev with position := ⟨ev.position.x, canvasHeight - margin⟩,
                  velocity := ⟨ev.velocity.x, min 0 ev.velocity.y⟩ }
      else ev
    else e3

/-- The fixed-timestep catch-up loop of `Game.gameLoop`
(src/unnamed/part_001 lines 378-381):
`while (accumulator >= fixedTimeStep) { update(fixedTimeStep);
accumulator -= fixedTimeStep; }`.  The simulation step `update` is the
abstract `step : W → W` on the simulation world.  The `0 < fixedTimeStep`
guard records that the source's constant `fixedTimeStep = 1000/60` is
positive (the loop would not terminate otherwise) and makes the
recursion well-founded.  Returns the final world, the remaining
accumulator, and the number of steps executed. -/
def runFixedLoop {W : Type} (step : W → W) (fixedTimeStep accumulator : ℚ)
    (world : W) : W × ℚ × ℕ :=
  if h : 0 < fixedTimeStep ∧ fixedTimeStep ≤ accumulator then
    let r := runFixedLoop step fixedTimeStep (accumulator - fixedTimeStep)
      (step world)
    (r.1, r.2.1, r.2.2 + 1)
  else (world, accumulator, 0)
termination_by ⌊accumulator / fixedTimeStep⌋.toNat
decreasing_by
  rcases h with ⟨hf, hle⟩
  have hd : (accumulator - fixedTimeStep) / fixedTimeStep
      = accumulator / fixedTimeStep - 1 := by
    field_simp
  have hfl : ⌊(accumulator - fixedTimeStep) / fixedTimeStep⌋
      = ⌊accumulator / fixedTimeStep⌋ - 1 := by
    rw [hd]
    exact_mod_cast Int.floor_sub_int (accumulator / fixedTimeStep) 1
  have hone : (1 : ℤ) ≤ ⌊accumulator / fixedTimeStep⌋ := by
    rw [Int.le_floor]
    push_cast
    rw [le_div_iff₀ hf]
    simpa using hle
  omega

/-- The `Game` loop-driver state (src/unnamed/part_001): `lastTime`,
`accumulator`, `isPaused`, the edge-detection state of the pause key
(`lastPauseKeyState`), plus the frame counter fed to the FPS/metrics
bookkeeping (`updateFPS`), a render counter, and the simulation world
`W` (entities, pools, managers — everything `update(fixedTimeStep)`
touches). -/
structure GameState (W : Type) where
  lastTime : ℚ
  accumulator : ℚ
  isPaused : Bool
  lastPauseKeyState : Bool
  fpsFrameCount : ℕ
  renders : ℕ
  world : W

/-- One invocation of `Game.gameLoop` (src/unnamed/part_001 lines
359-387) with the frame's `currentTime` and the pause key's pressed
state.  In source order: compute `deltaTime` and store `lastTime`;
`updateFPS` (FPS/metrics bookkeeping only, modelled by the frame
counter); `inputManager.update()` (device polling, no simulation
state); `handlePauseInput` (lines 429-436): toggle `isPaused` on a
rising edge of the pause key and latch `lastPauseKeyState` — always,
even while paused; if not paused, add `deltaTime` to the accumulator
and run the catch-up loop; always render.  Returns the new state and
the number of simulation steps executed this frame. -/
def gameLoopFrame {W : Type} (step : W → W) (fixedTimeStep : ℚ)
    (s : GameState W) (currentTime : ℚ) (pauseKeyPressed : Bool) :
    GameState W × ℕ :=
  let deltaTime := currentTime - s.lastTime
  let isPaused' :=
    if pauseKeyPressed && !s.lastPauseKeyState then !s.isPaused else s.isPaused
  if isPaused' = false then
    let r := runFixedLoop step fixedTimeStep (s.accumulator + deltaTime) s.world
    ({ lastTime := currentTime, accumulator := r.2.1, isPaused := isPaused',
       lastPauseKeyState := pauseKeyPressed,
       fpsFrameCount := s.fpsFrameCount + 1,
       renders := s.renders + 1, world := r.1 }, r.2.2)
  else
    ({ s with lastTime := currentTime, isPaused := isPaused',
              lastPauseKeyState := pauseKeyPressed,
              fpsFrameCount := s.fpsFrameCount + 1,
              renders := s.renders + 1 }, 0)

end EndlessHorde

namespace EndlessHorde

/-- C6: the performance classification is HIGH iff FPS ≥ 50 and average
frame time ≤ 20ms, else MEDIUM iff FPS ≥ 30 and average frame time
≤ 33ms, else LOW; and the entity update frequency is 1.0 / 0.8 / 0.6 at
HIGH / MEDIUM / LOW respectively. -/
theorem performance_level_classification (fps avgFrameTime : ℚ) :
    (updatePerformanceLevel fps avgFrameTime = .high ↔
      (50 ≤ fps ∧ avgFrameTime ≤ 20)) ∧
    (¬(50 ≤ fps ∧ avgFrameTime ≤ 20) →
      (updatePerformanceLevel fps avgFrameTime = .medium ↔
        (30 ≤ fps ∧ avgFrameTime ≤ 33))) ∧
    (¬(50 ≤ fps ∧ avgFrameTime ≤ 20) → ¬(30 ≤ fps ∧ avgFrameTime ≤ 33) →
      updatePerformanceLevel fps avgFrameTime = .low) ∧
    getEntityUpdateFrequency .high = 1 ∧
    getEntityUpdateFrequency .medium = 8 / 10 ∧
    getEntityUpdateFrequency .low = 6 / 10 := by
  unfold updatePerformanceLevel
  refine ⟨?_, ?_, ?_, rfl, rfl, rfl⟩
  · split
    · simp_all
    · split <;> simp_all
  · intro h
    rw [if_neg h]
    split <;> simp_all
  · intro h h'
    rw [if_neg h, if_neg h']

/-- Witness for C6: at FPS 60 and 10ms average frame time the
classification is HIGH, and the update frequency at HIGH is 1. -/
theorem performance_level_classification_witness :
    updatePerformanceLevel 60 10 = .high ∧ getEntityUpdateFrequency .high = 1 := by
  have h := performance_level_classification 60 10
  exact ⟨h.1.mpr (by norm_num), h.2.2.2.1⟩

/-- `canAttack` as a conjunction of its three gates. -/
theorem canAttack_eq (a : Attacker) (t : Walker) (config : AttackConfig)
    (now : ℚ) :
    AttackSystem.canAttack a t config now =
      (a.active && t.active &&
        (match a.lastAttackTime with
         | some last => !decide (now - last < config.cooldown)
         | none => true) &&
        Vector2.distLE a.position t.position
          (config.range + (a.size + t.size) / 2)) := by
  unfold AttackSystem.canAttack
  rcases a.lastAttackTime with _ | last <;>
    rcases ha : a.active with _ | _ <;>
    rcases ht : t.active with _ | _ <;>
      simp [ha, ht]

/-- Characterization of `canAttack`: true exactly when both parties are
active, no prior attack is inside the cooldown window, and the target
is within `range + (sizes)/2`. -/
theorem canAttack_true_iff (a : Attacker) (t : Walker) (config : AttackConfig)
    (now : ℚ) :
    AttackSystem.canAttack a t config now = true ↔
      a.active = true ∧ t.active = true ∧
      (∀ last, a.lastAttackTime = some last → ¬(now - last < config.cooldown)) ∧
      Vector2.distLE a.position t.position
        (config.range + (a.size + t.size) / 2) = true := by
  rw [canAttack_eq]
  rcases hl : a.lastAttackTime with _ | last <;> simp [hl, and_assoc]

/-- `performAttack` is a no-op returning false when `canAttack` fails. -/
theorem performAttack_of_not_canAttack (a : Attacker) (t : Walker)
    (config : AttackConfig) (now : ℚ)
    (h : AttackSystem.canAttack a t config now = false) :
    AttackSystem.performAttack a t config now = (false, a, t) := by
  unfold AttackSystem.performAttack
  rw [h]
  simp

/-- The success flag of `performAttack` is exactly `canAttack`. -/
theorem performAttack_fst (a : Attacker) (t : Walker) (config : AttackConfig)
    (now : ℚ) :
    (AttackSystem.performAttack a t config now).1
      = AttackSystem.canAttack a t config now := by
  unfold AttackSystem.performAttack
  split_ifs with h <;> simp [h]

/-- C3: `canAttack` is false when either party is inactive, false inside
the cooldown window, false out of range, and true otherwise; and with a
500ms cooldown a successful `performAttack` blocks a second call 100ms
later (false, target unchanged) while a call 500ms later succeeds
(provided the target survived the first hit). -/
theorem attack_cooldown_gating :
    (∀ (a : Attacker) (t : Walker) (config : AttackConfig) (now : ℚ),
      (¬a.active = true ∨ ¬t.active = true →
        AttackSystem.canAttack a t config now = false) ∧
      (∀ last, a.lastAttackTime = some last → now - last < config.cooldown →
        AttackSystem.canAttack a t config now = false) ∧
      (Vector2.distLE a.position t.position
          (config.range + (a.size + t.size) / 2) = false →
        AttackSystem.canAttack a t config now = false) ∧
      (a.active = true → t.active = true →
        (∀ last, a.lastAttackTime = some last → ¬(now - last < config.cooldown)) →
        Vector2.distLE a.position t.position
          (config.range + (a.size + t.size) / 2) = true →
        AttackSystem.canAttack a t config now = true)) ∧
    (∀ (a : Attacker) (t : Walker) (config : AttackConfig) (t0 : ℚ),
      config.cooldown = 500 →
      AttackSystem.canAttack a t config t0 = true →
      0 < t.health - config.damage →
      (AttackSystem.performAttack a t config t0).1 = true ∧
      (AttackSystem.performAttack a t config t0).2.2.health
        = t.health - config.damage ∧
      (let r := AttackSystem.performAttack a t config t0
       AttackSystem.performAttack r.2.1 r.2.2 config (t0 + 100)
         = (false, r.2.1, r.2.2)) ∧
      (let r := AttackSystem.performAttack a t config t0
       (AttackSystem.performAttack r.2.1 r.2.2 config (t0 + 500)).1 = true)) := by
  constructor
  · intro a t config now
    refine ⟨?_, ?_, ?_, fun h1 h2 h3 h4 =>
      (canAttack_true_iff a t config now).mpr ⟨h1, h2, h3, h4⟩⟩
    · intro h
      cases hc : AttackSystem.canAttack a t config now
      · rfl
      · rcases (canAttack_true_iff a t config now).mp hc with ⟨h1, h2, -, -⟩
        rcases h with h | h
        · exact absurd h1 h
        · exact absurd h2 h
    · intro last hlast hcool
      cases hc : AttackSystem.canAttack a t config now
      · rfl
      · exact absurd hcool
          (((canAttack_true_iff a t config now).mp hc).2.2.1 last hlast)
    · intro hrange
      cases hc : AttackSystem.canAttack a t config now
      · rfl
      · have h4 := ((canAttack_true_iff a t config now).mp hc).2.2.2
        rw [hrange] at h4
        exact absurd h4 (by simp)
  · intro a t config t0 hcool hfirst hsurvive
    rcases (canAttack_true_iff a t config t0).mp hfirst with ⟨ha, ht, -, hrange⟩
    have hno : ¬(t.health - config.damage ≤ 0) := not_le.mpr hsurvive
    have ht' : (t.takeDamage config.damage).1
        = { t with health := t.health - config.damage } := by
      unfold Walker.takeDamage
      simp [hno]
    have hperf : AttackSystem.performAttack a t config t0
        = (true, { a with lastAttackTime := some t0 },
           { t with health := t.health - config.damage }) := by
      unfold AttackSystem.performAttack
      rw [if_pos hfirst, ht']
    refine ⟨by rw [hperf], by rw [hperf], ?_, ?_⟩
    · have hcan : AttackSystem.canAttack { a with lastAttackTime := some t0 }
          { t with health := t.health - config.damage } config (t0 + 100) = false := by
        rw [canAttack_eq]
        have h100 : decide (t0 + 100 - t0 < config.cooldown) = true := by
          simp only [decide_eq_true_eq, hcool]
          norm_num
        simp only [h100, Bool.not_true, Bool.and_false, Bool.false_and]
      simp only [hperf]
      exact performAttack_of_not_canAttack _ _ _ _ hcan
    · have hcan : AttackSystem.canAttack { a with lastAttackTime := some t0 }
          { t with health := t.health - config.damage } config (t0 + 500) = true := by
        rw [canAttack_eq]
        have h500 : decide (t0 + 500 - t0 < config.cooldown) = false := by
          simp only [decide_eq_false_iff_not, hcool]
          norm_num
        simp only [ha, ht, h500, Bool.not_false, Bool.and_true, Bool.true_and]
        exact hrange
      simp only [hperf]
      exact (performAttack_fst _ _ _ _).trans hcan

/-- Witness for C3: a concrete attacker and walker at the same point,
config damage 1 / range 5 / cooldown 500, first attack at time 1000. -/
theorem attack_cooldown_gating_witness :
    (0:ℚ) < (5:ℚ) - (1:ℚ) ∧
    ((AttackSystem.performAttack ⟨⟨100, 100⟩, 10, true, none⟩
        ⟨⟨100, 100⟩, ⟨0, 0⟩, true, 8, 5, 5, 0⟩ ⟨1, 5, 500⟩ 1000).1 = true ∧
     (AttackSystem.performAttack ⟨⟨100, 100⟩, 10, true, none⟩
        ⟨⟨100, 100⟩, ⟨0, 0⟩, true, 8, 5, 5, 0⟩ ⟨1, 5, 500⟩ 1000).2.2.health
       = (5:ℚ) - (1:ℚ) ∧
     (let r := AttackSystem.performAttack ⟨⟨100, 100⟩, 10, true, none⟩
        ⟨⟨100, 100⟩, ⟨0, 0⟩, true, 8, 5, 5, 0⟩ ⟨1, 5, 500⟩ 1000
      AttackSystem.performAttack r.2.1 r.2.2 ⟨1, 5, 500⟩ (1000 + 100)
        = (false, r.2.1, r.2.2)) ∧
     (let r := AttackSystem.performAttack ⟨⟨100, 100⟩, 10, true, none⟩
        ⟨⟨100, 100⟩, ⟨0, 0⟩, true, 8, 5, 5, 0⟩ ⟨1, 5, 500⟩ 1000
      (AttackSystem.performAttack r.2.1 r.2.2 ⟨1, 5, 500⟩ (1000 + 500)).1 = true)) :=
  ⟨by norm_num,
   attack_cooldown_gating.2 ⟨⟨100, 100⟩, 10, true, none⟩
     ⟨⟨100, 100⟩, ⟨0, 0⟩, true, 8, 5, 5, 0⟩ ⟨1, 5, 500⟩ 1000 rfl
     (by norm_num [canAttack_eq, Vector2.distLE, Vector2.dist2])
     (by norm_num)⟩

/-- Counterexample for C4: `Walker.takeDamage` carries no active-guard.
A walker with 1 health is defeated by the first 1-damage hit
(health 0, inactive, defeat reported); invoking `takeDamage` again on
the now-inactive walker decrements health to -1 — further damage — and
reports the walker as defeated a second time. -/
theorem takeDamage_inactive_counterexample :
    let w0 : Walker := ⟨⟨100, 100⟩, ⟨0, 0⟩, true, 8, 1, 1, 0⟩
    let w1 := (w0.takeDamage 1).1
    (w0.takeDamage 1).2 = true ∧ w1.active = false ∧ w1.health = 0 ∧
    (w1.takeDamage 1).1.health = -1 ∧
    ¬((w1.takeDamage 1).1.health = w1.health) ∧
    (w1.takeDamage 1).2 = true := by
  norm_num [Walker.takeDamage]

/-- C4 amended: health dropping to 0 or below deactivates the walker and
reports the defeat; `Walker.takeDamage` itself has no inactive-guard
(see the counterexample), but through the attack path an inactive
walker cannot be damaged: `performAttack` against an inactive target is
a no-op returning false, and `checkCollisions` skips inactive walkers
entirely, awarding no souls — hence the defeat event and soul award
fire exactly once per walker. -/
theorem walker_defeat_unique_through_attacks :
    (∀ (w : Walker) (damage : ℚ), w.health - damage ≤ 0 →
      (w.takeDamage damage).1.active = false ∧ (w.takeDamage damage).2 = true) ∧
    (∀ (a : Attacker) (t : Walker) (config : AttackConfig) (now : ℚ),
      t.active = false →
      AttackSystem.performAttack a t config now = (false, a, t)) ∧
    (∀ (a : Attacker) (config : AttackConfig) (now soulMultiplier : ℚ)
      (ws : List Walker), (∀ w ∈ ws, w.active = false) →
      ZombieSystem.checkCollisions a config now soulMultiplier ws = (a, ws, 0)) := by
  refine ⟨?_, ?_, ?_⟩
  · intro w damage h
    unfold Walker.takeDamage
    simp [h]
  · intro a t config now ht
    apply performAttack_of_not_canAttack
    rw [canAttack_eq]
    simp [ht]
  · intro a config now soulMultiplier ws h
    induction ws with
    | nil => rfl
    | cons w ws ih =>
      have hw : w.active = false := h w (by simp)
      have hrest : ∀ w' ∈ ws, w'.active = false := fun w' hw' => h w' (by simp [hw'])
      unfold ZombieSystem.checkCollisions
      rw [if_pos hw, ih hrest]

/-- Witness for C4 (amended): a 1-health walker dies to 1 damage; an
inactive walker cannot be attacked; a singleton list holding an
inactive walker yields no attack and no souls. -/
theorem walker_defeat_unique_through_attacks_witness :
    ((5:ℚ) - 5 ≤ 0 ∧
      ((⟨⟨0, 0⟩, ⟨0, 0⟩, true, 8, 5, 5, 0⟩ : Walker).takeDamage 5).1.active = false ∧
      ((⟨⟨0, 0⟩, ⟨0, 0⟩, true, 8, 5, 5, 0⟩ : Walker).takeDamage 5).2 = true) ∧
    AttackSystem.performAttack ⟨⟨0, 0⟩, 10, true, none⟩
      ⟨⟨0, 0⟩, ⟨0, 0⟩, false, 8, 0, 5, 0⟩ ⟨1, 5, 500⟩ 1000
      = (false, ⟨⟨0, 0⟩, 10, true, none⟩, ⟨⟨0, 0⟩, ⟨0, 0⟩, false, 8, 0, 5, 0⟩) ∧
    ZombieSystem.checkCollisions ⟨⟨0, 0⟩, 10, true, none⟩ ⟨1, 5, 500⟩ 1000 2
      [⟨⟨0, 0⟩, ⟨0, 0⟩, false, 8, 0, 5, 0⟩]
      = (⟨⟨0, 0⟩, 10, true, none⟩, [⟨⟨0, 0⟩, ⟨0, 0⟩, false, 8, 0, 5, 0⟩], 0) := by
  refine ⟨⟨by norm_num, ?_⟩, ?_, ?_⟩
  · exact walker_defeat_unique_through_attacks.1
      ⟨⟨0, 0⟩, ⟨0, 0⟩, true, 8, 5, 5, 0⟩ 5 (by norm_num)
  · exact walker_defeat_unique_through_attacks.2.1 _ _ _ 1000 rfl
  · exact walker_defeat_unique_through_attacks.2.2 _ _ 1000 2 _ (by simp)

/-- `get` never grows the pool, and the max-size field is constant. -/
theorem ObjectPool.get_preserves {α : Type} (p : ObjectPool α) :
    (p.get).2.pool.length ≤ p.pool.length ∧ (p.get).2.maxSize = p.maxSize := by
  unfold ObjectPool.get
  cases hp : p.pool with
  | nil => simp [hp]
  | cons x rest => simp [hp]

/-- `release` keeps the pool within the max size. -/
theorem ObjectPool.release_preserves {α : Type} (p : ObjectPool α) (obj : α)
    (h : p.pool.length ≤ p.maxSize) :
    (p.release obj).pool.length ≤ p.maxSize ∧
    (p.release obj).maxSize = p.maxSize := by
  unfold ObjectPool.release
  split_ifs with hlt
  · exact ⟨by simpa using hlt, rfl⟩
  · exact ⟨h, rfl⟩

/-- Counterexample for C7: the walker pool's reset callback does not
zero the position.  Releasing a walker into an empty walker pool
(canvas 800×600, edge draw 0, coordinate draw 1/2) and getting it back
yields a walker at the top-edge spawn point (400, -20), not (0, 0). -/
theorem pool_reset_position_counterexample :
    let w : Walker := ⟨⟨100, 100⟩, ⟨3, 4⟩, false, 8, 0, 1, 0⟩
    let p : ObjectPool Walker :=
      ⟨fun _ => w, resetWalker 800 600 0 (1 / 2) 0, [], 50⟩
    ((p.release w).get).1.active = true ∧
    ((p.release w).get).1.position = ⟨400, -20⟩ ∧
    ¬(((p.release w).get).1.position = ⟨0, 0⟩) := by
  refine ⟨rfl, ?_, ?_⟩ <;>
    norm_num [ObjectPool.release, ObjectPool.get, resetWalker,
      getRandomEdgePosition, Vector2.mk.injEq]

/-- C7 amended: for any call sequence the pool size stays within
`[0, maxSize]` (given a valid start, e.g. `initialSize ≤ maxSize`);
`get` pops the most recently pushed instance exactly when the pool is
non-empty and otherwise calls `createFn`; `release` resets and returns
the instance to the pool only when the pool is below `maxSize` and
drops it otherwise; release-then-get on an otherwise-empty pool hands
back the just-released (reset) instance (LIFO).  The reset invariants
are: the zombie pool resets position to zero, velocity to zero and
active to true; the walker pool resets velocity to zero and active to
true but moves the position to a fresh random edge spawn point (not
zero) and leaves health untouched. -/
theorem pool_conservation_amended :
    (∀ {α : Type} (p : ObjectPool α) (ops : List (PoolOp α)),
      p.pool.length ≤ p.maxSize →
      (p.run ops).pool.length ≤ p.maxSize ∧ (p.run ops).maxSize = p.maxSize) ∧
    (∀ {α : Type} (p : ObjectPool α) (x : α) (rest : List α),
      p.pool = x :: rest → p.get = (x, { p with pool := rest })) ∧
    (∀ {α : Type} (p : ObjectPool α),
      p.pool = [] → p.get = (p.createFn (), p)) ∧
    (∀ {α : Type} (p : ObjectPool α) (obj : α),
      (p.pool.length < p.maxSize →
        p.release obj = { p with pool := p.resetFn obj :: p.pool }) ∧
      (¬p.pool.length < p.maxSize → p.release obj = p)) ∧
    (∀ {α : Type} (p : ObjectPool α) (obj : α),
      p.pool = [] → 0 < p.maxSize →
      ((p.release obj).get).1 = p.resetFn obj) ∧
    (∀ (speedMultiplier : ℚ) (z : Zombie),
      (resetZombie speedMultiplier z).position = ⟨0, 0⟩ ∧
      (resetZombie speedMultiplier z).active = true ∧
      (resetZombie speedMultiplier z).velocity = ⟨0, 0⟩) ∧
    (∀ (cw ch : ℚ) (edge : ℕ) (r : ℚ) (areaId : ℤ) (w : Walker),
      (resetWalker cw ch edge r areaId w).active = true ∧
      (resetWalker cw ch edge r areaId w).velocity = ⟨0, 0⟩ ∧
      (resetWalker cw ch edge r areaId w).health = w.health) := by
  refine ⟨?_, ?_, ?_, ?_, ?_, ?_, ?_⟩
  · intro α p ops
    induction ops generalizing p with
    | nil => exact fun h => ⟨h, rfl⟩
    | cons op ops ih =>
      intro h
      cases op with
      | get =>
        have hg := ObjectPool.get_preserves p
        have hrun : p.run (.get :: ops) = (p.get).2.run ops := rfl
        have hr := ih (p.get).2 (hg.2 ▸ le_trans hg.1 h)
        rw [hrun]
        exact ⟨le_trans hr.1 (le_of_eq hg.2), hr.2.trans hg.2⟩
      | release obj =>
        have hg := ObjectPool.release_preserves p obj h
        have hrun : p.run (.release obj :: ops) = (p.release obj).run ops := rfl
        have hr := ih (p.release obj) (hg.2 ▸ hg.1)
        rw [hrun]
        exact ⟨le_trans hr.1 (le_of_eq hg.2), hr.2.trans hg.2⟩
  · intro α p x rest hp
    unfold ObjectPool.get
    rw [hp]
  · intro α p hp
    unfold ObjectPool.get
    rw [hp]
  · intro α p obj
    constructor <;> intro hlt <;> unfold ObjectPool.release
    · rw [if_pos hlt]
    · rw [if_neg hlt]
  · intro α p obj hp hm
    unfold ObjectPool.release ObjectPool.get
    rw [hp]
    simp [hm]
  · intro speedMultiplier z
    exact ⟨rfl, rfl, rfl⟩
  · intro cw ch edge r areaId w
    exact ⟨rfl, rfl, rfl⟩

/-- Witness for C7 (amended): a concrete zombie pool of max size 20,
run through release-get-get, stays within bounds; release-then-get on
the empty pool returns the reset instance. -/
theorem pool_conservation_amended_witness :
    let p : ObjectPool Zombie := ⟨fun _ => Zombie.mkNew 0 0 1, resetZombie 1, [], 20⟩
    (([] : List Zombie).length ≤ 20 ∧
      (p.run [.release (Zombie.mkNew 5 5 1), .get, .get]).pool.length ≤ 20) ∧
    (((p.release (Zombie.mkNew 5 5 1)).get).1 = resetZombie 1 (Zombie.mkNew 5 5 1)) :=
  ⟨⟨by simp,
    (pool_conservation_amended.1 ⟨fun _ => Zombie.mkNew 0 0 1, resetZombie 1, [], 20⟩
      [.release (Zombie.mkNew 5 5 1), .get, .get] (by simp)).1⟩,
   pool_conservation_amended.2.2.2.2.1
     ⟨fun _ => Zombie.mkNew 0 0 1, resetZombie 1, [], 20⟩
     (Zombie.mkNew 5 5 1) rfl (by norm_num)⟩

/-- C10: a defeated walker (health 0, inactive) released to the walker
pool and drawn again comes back re-activated with zero velocity but
with its health still 0 — violating `0 < health ≤ maxHealth` — and the
next 1-damage attack on it succeeds and defeats it again. -/
theorem pool_reuse_health_leak :
    let w0 : Walker := ⟨⟨100, 100⟩, ⟨0, 0⟩, true, 8, 1, 1, 0⟩
    let w1 := (w0.takeDamage 1).1
    let p : ObjectPool Walker :=
      ⟨fun _ => w0, resetWalker 800 600 0 (1 / 2) 0, [], 50⟩
    let g := ((p.release w1).get).1
    (w0.takeDamage 1).2 = true ∧ w1.active = false ∧
    g.active = true ∧ g.velocity = ⟨0, 0⟩ ∧ g.health = 0 ∧ ¬(0 < g.health) ∧
    (AttackSystem.performAttack ⟨g.position, 10, true, none⟩ g ⟨1, 5, 500⟩ 2000).1
      = true ∧
    (AttackSystem.performAttack ⟨g.position, 10, true, none⟩ g ⟨1, 5, 500⟩ 2000).2.2.active
      = false ∧
    (g.takeDamage 1).2 = true := by
  norm_num [Walker.takeDamage, ObjectPool.release, ObjectPool.get, resetWalker,
    getRandomEdgePosition, AttackSystem.performAttack, AttackSystem.canAttack,
    Vector2.distLE, Vector2.dist2]

/-- C5: with the active zombie count at or above `getMaxZombies()`
(10 + 5 per max-zombies level), `spawnZombie` returns false and leaves
the state — in particular the zombie collection — unchanged; below the
cap (under the maintained invariant that every stored zombie is active,
so that the array length equals the active count) it succeeds, clamping
the requested position into bounds with a 10-unit margin and appending
exactly one zombie. -/
theorem zombie_spawn_cap :
    (∀ (s : ZombieSystemState) (pos : Vector2),
      UpgradeManager.getMaxZombies s.maxZombiesLevel
          ≤ (s.zombies.filter (·.active)).length →
      ZombieSystem.spawnZombie s pos = (false, s)) ∧
    (∀ (s : ZombieSystemState) (pos : Vector2),
      (∀ z ∈ s.zombies, z.active = true) →
      (s.zombies.filter (·.active)).length
          < UpgradeManager.getMaxZombies s.maxZombiesLevel →
      (ZombieSystem.spawnZombie s pos).1 = true ∧
      (ZombieSystem.spawnZombie s pos).2.zombies
        = s.zombies ++
          [{ (s.zombiePool.get).1 with position :=
              ⟨max 10 (min (s.canvasWidth - 10) pos.x),
               max 10 (min (s.canvasHeight - 10) pos.y)⟩ }] ∧
      (ZombieSystem.spawnZombie s pos).2.zombies.length
        = s.zombies.length + 1) := by
  constructor
  · intro s pos h
    have hlen : UpgradeManager.getMaxZombies s.maxZombiesLevel
        ≤ s.zombies.length :=
      le_trans h (List.length_filter_le _ _)
    unfold ZombieSystem.spawnZombie
    rw [if_pos hlen]
  · intro s pos hall hlt
    have hfl : s.zombies.filter (·.active) = s.zombies :=
      List.filter_eq_self.mpr (fun z hz => by simp [hall z hz])
    have hlen : ¬(UpgradeManager.getMaxZombies s.maxZombiesLevel
        ≤ s.zombies.length) := by
      rw [← hfl]
      exact not_le.mpr hlt
    unfold ZombieSystem.spawnZombie
    rw [if_neg hlen]
    refine ⟨rfl, rfl, ?_⟩
    simp

/-- Witness for C5: with the max-zombies upgrade at level 0 the cap is
10; a state holding 10 active zombies rejects a further spawn
unchanged, and the empty state accepts one, clamping the requested
point (900, -50) into the 800×600 canvas with the 10-unit margin. -/
theorem zombie_spawn_cap_witness :
    let zpool : ObjectPool Zombie :=
      ⟨fun _ => Zombie.mkNew 0 0 1, resetZombie 1, [], 20⟩
    let sFull : ZombieSystemState :=
      ⟨List.replicate 10 (Zombie.mkNew 0 0 1), zpool, 800, 600, 0⟩
    let sEmpty : ZombieSystemState := ⟨[], zpool, 800, 600, 0⟩
    ZombieSystem.spawnZombie sFull ⟨900, -50⟩ = (false, sFull) ∧
    ((ZombieSystem.spawnZombie sEmpty ⟨900, -50⟩).1 = true ∧
      (ZombieSystem.spawnZombie sEmpty ⟨900, -50⟩).2.zombies
        = [] ++ [{ (zpool.get).1 with position :=
            ⟨max 10 (min (800 - 10) 900), max 10 (min (600 - 10) (-50))⟩ }] ∧
      (ZombieSystem.spawnZombie sEmpty ⟨900, -50⟩).2.zombies.length
        = ([] : List Zombie).length + 1) :=
  ⟨zombie_spawn_cap.1 ⟨List.replicate 10 (Zombie.mkNew 0 0 1),
      ⟨fun _ => Zombie.mkNew 0 0 1, resetZombie 1, [], 20⟩, 800, 600, 0⟩
      ⟨900, -50⟩ (by simp [Zombie.mkNew, UpgradeManager.getMaxZombies,
        List.filter_replicate]),
   zombie_spawn_cap.2 ⟨[], ⟨fun _ => Zombie.mkNew 0 0 1, resetZombie 1, [], 20⟩,
      800, 600, 0⟩ ⟨900, -50⟩ (by simp)
      (by simp [UpgradeManager.getMaxZombies])⟩

/-- C1: on a frame processed while `isPaused` is true (and no rising
edge of the pause key unpauses within the frame), the loop adds no
`deltaTime` to the accumulator and runs zero simulation steps, so the
simulation world — every entity position, velocity, health, and all
pool state — is unchanged; the pause-toggle input is still serviced
(the key edge-state is latched and the game stays paused) and render
still runs (the render counter advances). -/
theorem pause_frame_invariance {W : Type} (step : W → W) (fixedTimeStep : ℚ)
    (s : GameState W) (currentTime : ℚ) (pauseKeyPressed : Bool)
    (hp : s.isPaused = true)
    (hkey : pauseKeyPressed = true → s.lastPauseKeyState = true) :
    (gameLoopFrame step fixedTimeStep s currentTime pauseKeyPressed).2 = 0 ∧
    (gameLoopFrame step fixedTimeStep s currentTime pauseKeyPressed).1.world
      = s.world ∧
    (gameLoopFrame step fixedTimeStep s currentTime pauseKeyPressed).1.accumulator
      = s.accumulator ∧
    (gameLoopFrame step fixedTimeStep s currentTime pauseKeyPressed).1.isPaused
      = true ∧
    (gameLoopFrame step fixedTimeStep s currentTime pauseKeyPressed).1.lastPauseKeyState
      = pauseKeyPressed ∧
    (gameLoopFrame step fixedTimeStep s currentTime pauseKeyPressed).1.renders
      = s.renders + 1 := by
  have hcond : (pauseKeyPressed && !s.lastPauseKeyState) = false := by
    cases hk : pauseKeyPressed
    · rfl
    · simp [hkey hk]
  unfold gameLoopFrame
  simp [hcond, hp]

/-- Witness for C1: a concrete paused state over the world `ℕ` with
`step = Nat.succ`; the frame at time 5000 with the pause key up leaves
world and accumulator untouched, runs 0 steps, and renders. -/
theorem pause_frame_invariance_witness :
    (gameLoopFrame Nat.succ (1000 / 60) ⟨0, 7, true, false, 0, 3, 42⟩ 5000 false).2
      = 0 ∧
    (gameLoopFrame Nat.succ (1000 / 60) ⟨0, 7, true, false, 0, 3, 42⟩ 5000 false).1.world
      = 42 ∧
    (gameLoopFrame Nat.succ (1000 / 60) ⟨0, 7, true, false, 0, 3, 42⟩ 5000 false).1.accumulator
      = 7 ∧
    (gameLoopFrame Nat.succ (1000 / 60) ⟨0, 7, true, false, 0, 3, 42⟩ 5000 false).1.isPaused
      = true ∧
    (gameLoopFrame Nat.succ (1000 / 60) ⟨0, 7, true, false, 0, 3, 42⟩ 5000 false).1.lastPauseKeyState
      = false ∧
    (gameLoopFrame Nat.succ (1000 / 60) ⟨0, 7, true, false, 0, 3, 42⟩ 5000 false).1.renders
      = 3 + 1 :=
  pause_frame_invariance Nat.succ (1000 / 60) ⟨0, 7, true, false, 0, 3, 42⟩ 5000
    false rfl (by simp)

/-- Closed form of the catch-up loop: with a positive time step it
executes `⌊accumulator / fixedTimeStep⌋` steps, iterating the
simulation step that many times and leaving the remainder in the
accumulator. -/
theorem runFixedLoop_eq {W : Type} (step : W → W) (f acc : ℚ) (w : W)
    (hf : 0 < f) :
    runFixedLoop step f acc w =
      (step^[⌊acc / f⌋.toNat] w, acc - ⌊acc / f⌋.toNat * f, ⌊acc / f⌋.toNat) := by
  by_cases hle : f ≤ acc
  · have hone : (1 : ℤ) ≤ ⌊acc / f⌋ := by
      rw [Int.le_floor]
      push_cast
      rw [le_div_iff₀ hf]
      simpa using hle
    have hd : (acc - f) / f = acc / f - 1 := by field_simp
    have hfl : ⌊(acc - f) / f⌋ = ⌊acc / f⌋ - 1 := by
      rw [hd]
      exact_mod_cast Int.floor_sub_int (acc / f) 1
    have hih := runFixedLoop_eq step f (acc - f) (step w) hf
    obtain ⟨n, hn⟩ : ∃ n, ⌊acc / f⌋.toNat = n + 1 := ⟨⌊acc / f⌋.toNat - 1, by omega⟩
    have htn : ⌊(acc - f) / f⌋.toNat = n := by omega
    rw [runFixedLoop, dif_pos ⟨hf, hle⟩]
    simp only [hih, htn, hn, Prod.mk.injEq]
    refine ⟨?_, ?_, trivial⟩
    · exact (Function.iterate_succ_apply step n w).symm
    · push_cast
      ring
  · have hz : ⌊acc / f⌋.toNat = 0 := by
      have h1 : acc / f < 1 := by
        rw [div_lt_one hf]
        exact lt_of_not_le hle
      have h2 : ⌊acc / f⌋ < 1 := Int.floor_lt.mpr (by exact_mod_cast h1)
      omega
    rw [runFixedLoop, dif_neg (fun hcon => hle hcon.2), hz]
    norm_num
termination_by ⌊acc / f⌋.toNat
decreasing_by
  omega

/-- Counterexample for C2: the game loop has no accumulator clamp.  A
single frame with `deltaTime = 5000` ms at `fixedTimeStep = 1000/60`
executes 300 simulation steps, not at most a clamp ceiling of about
5. -/
theorem accumulator_clamp_counterexample :
    (gameLoopFrame Nat.succ (1000 / 60) ⟨0, 0, false, false, 0, 0, 0⟩ 5000 false).2
      = 300 ∧
    ¬((gameLoopFrame Nat.succ (1000 / 60) ⟨0, 0, false, false, 0, 0, 0⟩ 5000 false).2
      ≤ 5) := by
  have hr := runFixedLoop_eq Nat.succ (1000 / 60) ((0 : ℚ) + (5000 - 0)) (0 : ℕ)
    (by norm_num)
  have hq : ((0 : ℚ) + (5000 - 0)) / (1000 / 60) = ((300 : ℤ) : ℚ) := by norm_num
  rw [hq, Int.floor_intCast] at hr
  norm_num at hr
  unfold gameLoopFrame
  norm_num [hr]
  omega

/-- C2 amended: the source's catch-up while-loop is not clamped — on an
unpaused frame (with no pause-key rising edge) the loop executes
exactly `⌊(accumulator + deltaTime) / fixedTimeStep⌋` simulation steps,
iterating the simulation step that many times; in particular a single
5000 ms stall at `fixedTimeStep = 1000/60` yields 300 steps in one
frame. -/
theorem no_accumulator_clamp {W : Type} (step : W → W) (f : ℚ)
    (s : GameState W) (t : ℚ) (key : Bool) (hf : 0 < f)
    (hp : s.isPaused = false) (hkey : key = true → s.lastPauseKeyState = true) :
    (gameLoopFrame step f s t key).2
      = ⌊(s.accumulator + (t - s.lastTime)) / f⌋.toNat ∧
    (gameLoopFrame step f s t key).1.world
      = step^[⌊(s.accumulator + (t - s.lastTime)) / f⌋.toNat] s.world := by
  have hcond : (key && !s.lastPauseKeyState) = false := by
    cases hk : key
    · rfl
    · simp [hkey hk]
  have hr := runFixedLoop_eq step f (s.accumulator + (t - s.lastTime)) s.world hf
  unfold gameLoopFrame
  simp [hcond, hp, hr]

/-- Witness for C2 (amended): from a fresh state, a 100 ms frame at
`fixedTimeStep = 1000/60` executes `⌊6⌋ = 6` steps and iterates the
step function 6 times on the world. -/
theorem no_accumulator_clamp_witness :
    (gameLoopFrame Nat.succ (1000 / 60) ⟨0, 0, false, false, 0, 0, 0⟩ 100 false).2
      = 6 ∧
    (gameLoopFrame Nat.succ (1000 / 60) ⟨0, 0, false, false, 0, 0, 0⟩ 100 false).1.world
      = 6 := by
  have h := no_accumulator_clamp Nat.succ (1000 / 60)
    ⟨0, 0, false, false, 0, 0, 0⟩ 100 false (by norm_num) rfl (by simp)
  have hq : ((0 : ℚ) + (100 - 0)) / (1000 / 60) = ((6 : ℤ) : ℚ) := by norm_num
  rw [hq, Int.floor_intCast] at h
  rcases h with ⟨h1, h2⟩
  refine ⟨by rw [h1]; rfl, by rw [h2]; rfl⟩

/-- A single application of `applyBoundaryCollision` to an active
in-bounds entity leaves its position (and size and active flag)
unchanged: only the soft-boundary velocity nudges can fire, and the
hard-edge clamps are strictly-beyond-the-edge checks. -/
theorem applyBoundaryCollision_inbounds (e : CollisionEntity) (w h bf : ℚ)
    (ha : e.active = true)
    (hx1 : e.size / 2 ≤ e.position.x) (hx2 : e.position.x ≤ w - e.size / 2)
    (hy1 : e.size / 2 ≤ e.position.y) (hy2 : e.position.y ≤ h - e.size / 2) :
    (applyBoundaryCollision e w h bf).position = e.position ∧
    (applyBoundaryCollision e w h bf).active = e.active ∧
    (applyBoundaryCollision e w h bf).size = e.size := by
  have hx1' : ¬(e.position.x < e.size / 2) := not_lt.mpr hx1
  have hx2' : ¬(w - e.size / 2 < e.position.x) := not_lt.mpr hx2
  have hy1' : ¬(e.position.y < e.size / 2) := not_lt.mpr hy1
  have hy2' : ¬(h - e.size / 2 < e.position.y) := not_lt.mpr hy2
  unfold applyBoundaryCollision
  rw [if_neg (by simp [ha])]
  dsimp only
  split_ifs <;> simp_all

/-- C8: an active entity starting within `[size/2, dimension - size/2]`
on both axes stays within those bounds under any number of
applications of `applyBoundaryCollision` (its position is in fact
unchanged — boundary passes only nudge velocity inside the bounds);
and an entity strictly beyond the hard left edge is clamped exactly to
`x = size/2` with its outward (negative) x-velocity removed, provided
the canvas fits both margins (`size + 20 ≤ width`; the right, top and
bottom edges behave symmetrically). -/
theorem boundary_containment :
    (∀ (e : CollisionEntity) (w h bf : ℚ) (n : ℕ),
      e.active = true →
      e.size / 2 ≤ e.position.x → e.position.x ≤ w - e.size / 2 →
      e.size / 2 ≤ e.position.y → e.position.y ≤ h - e.size / 2 →
      let e' := (fun ent => applyBoundaryCollision ent w h bf)^[n] e
      e'.size / 2 ≤ e'.position.x ∧ e'.position.x ≤ w - e'.size / 2 ∧
      e'.size / 2 ≤ e'.position.y ∧ e'.position.y ≤ h - e'.size / 2) ∧
    (∀ (e : CollisionEntity) (w h bf : ℚ),
      e.active = true → e.position.x < e.size / 2 → e.size + 20 ≤ w →
      (applyBoundaryCollision e w h bf).position.x = e.size / 2 ∧
      0 ≤ (applyBoundaryCollision e w h bf).velocity.x) := by
  constructor
  · intro e w h bf n ha hx1 hx2 hy1 hy2
    have key : ∀ m : ℕ,
        ((fun ent => applyBoundaryCollision ent w h bf)^[m] e).position
            = e.position ∧
        ((fun ent => applyBoundaryCollision ent w h bf)^[m] e).active
            = e.active ∧
        ((fun ent => applyBoundaryCollision ent w h bf)^[m] e).size
            = e.size := by
      intro m
      induction m with
      | zero => exact ⟨rfl, rfl, rfl⟩
      | succ k ih =>
        rw [Function.iterate_succ_apply']
        rcases ih with ⟨ihp, iha, ihs⟩
        have hstep := applyBoundaryCollision_inbounds
          ((fun ent => applyBoundaryCollision ent w h bf)^[k] e) w h bf
          (by rw [iha, ha]) (by rw [ihp, ihs]; exact hx1)
          (by rw [ihp, ihs]; exact hx2) (by rw [ihp, ihs]; exact hy1)
          (by rw [ihp, ihs]; exact hy2)
        exact ⟨hstep.1.trans ihp, hstep.2.1.trans iha, hstep.2.2.trans ihs⟩
    rcases key n with ⟨hp, -, hs⟩
    dsimp only
    rw [hp, hs]
    exact ⟨hx1, hx2, hy1, hy2⟩
  · intro e w h bf ha hx hw
    have h1 : e.position.x < e.size / 2 + 20 := by linarith
    have h2 : ¬(w - e.size / 2 - 20 < e.size / 2) := by intro hc; linarith
    unfold applyBoundaryCollision
    rw [if_neg (by simp [ha])]
    dsimp only
    rw [if_pos h1, if_pos hx]
    dsimp only
    rw [if_neg h2]
    split_ifs <;> simp_all [le_sup_left]

/-- Witness for C8: a 16-unit entity at the center of an 800×600 canvas
stays in bounds over 3 boundary passes, and an entity at x = 3 (beyond
its hard left edge at 8) is clamped to x = 8 with non-negative
x-velocity. -/
theorem boundary_containment_witness :
    (let e' := (fun ent => applyBoundaryCollision ent 800 600 100)^[3]
        (⟨⟨400, 300⟩, ⟨5, -7⟩, 16, true⟩ : CollisionEntity)
     e'.size / 2 ≤ e'.position.x ∧ e'.position.x ≤ 800 - e'.size / 2 ∧
     e'.size / 2 ≤ e'.position.y ∧ e'.position.y ≤ 600 - e'.size / 2) ∧
    ((applyBoundaryCollision ⟨⟨3, 300⟩, ⟨-5, 0⟩, 16, true⟩ 800 600 100).position.x
        = (16 : ℚ) / 2 ∧
     0 ≤ (applyBoundaryCollision ⟨⟨3, 300⟩, ⟨-5, 0⟩, 16, true⟩ 800 600 100).velocity.x) :=
  ⟨boundary_containment.1 ⟨⟨400, 300⟩, ⟨5, -7⟩, 16, true⟩ 800 600 100 3 rfl
      (by norm_num) (by norm_num) (by norm_num) (by norm_num),
   boundary_containment.2 ⟨⟨3, 300⟩, ⟨-5, 0⟩, 16, true⟩ 800 600 100 rfl
      (by norm_num) (by norm_num)⟩

/-- Counterexample for C9: when the monitor does not request culling
(`cullingEnabled = false`) and no explicit max is passed,
`cullEntities` returns the input list unchanged — here 61 entities,
exceeding the monitor's cap of 60, so the result is NOT bounded by
`max(maxCount, cap)`. -/
theorem cull_bound_counterexample :
    let ent : CullableEntity := ⟨⟨0, 0⟩, true, none⟩
    let m : MonitorCullState := ⟨false, 61, 60⟩
    (EntityCuller.cullEntities m (fun _ => 0) (List.replicate 61 ent)
        800 600 none).length = 61 ∧
    m.maxEntitiesBeforeCulling = 60 ∧
    ¬((EntityCuller.cullEntities m (fun _ => 0) (List.replicate 61 ent)
        800 600 none).length ≤ 60) := by
  norm_num [EntityCuller.cullEntities, PerformanceMonitor.shouldCullEntities,
    optTruthy]

/-- C9 amended: whenever culling actually applies — the monitor
requests culling or a (truthy) explicit max was passed —
`cullEntities` returns at most
`max(effectiveMaxCount, monitor cap)` entities, and returns exactly
the full active set when the active count is at most the effective
cap; when the monitor does not request culling and no explicit max is
passed, it returns the input unchanged, which may exceed the cap. -/
theorem cull_bound_amended :
    (∀ (m : MonitorCullState) (score : CullableEntity → ℚ)
      (entities : List CullableEntity) (vw vh : ℚ) (maxE : Option ℕ),
      ¬(PerformanceMonitor.shouldCullEntities m = false ∧
        optTruthy maxE = false) →
      (EntityCuller.cullEntities m score entities vw vh maxE).length
        ≤ max (effectiveMaxCount m maxE) m.maxEntitiesBeforeCulling) ∧
    (∀ (m : MonitorCullState) (score : CullableEntity → ℚ)
      (entities : List CullableEntity) (vw vh : ℚ) (maxE : Option ℕ),
      PerformanceMonitor.shouldCullEntities m = false →
      optTruthy maxE = false →
      EntityCuller.cullEntities m score entities vw vh maxE = entities) ∧
    (∀ (m : MonitorCullState) (score : CullableEntity → ℚ)
      (entities : List CullableEntity) (vw vh : ℚ) (maxE : Option ℕ),
      ¬(PerformanceMonitor.shouldCullEntities m = false ∧
        optTruthy maxE = false) →
      (entities.filter (·.active)).length ≤ effectiveMaxCount m maxE →
      EntityCuller.cullEntities m score entities vw vh maxE
        = entities.filter (·.active)) := by
  refine ⟨?_, ?_, ?_⟩
  · intro m score entities vw vh maxE hbr
    unfold EntityCuller.cullEntities
    rw [if_neg hbr]
    dsimp only
    split_ifs with h1 h2
    · exact le_trans h1 (le_max_left _ _)
    · refine le_trans ?_ (le_max_left _ _)
      unfold EntityCuller.priorityCull
      rw [List.length_take, List.length_mergeSort]
      exact min_le_left _ _
    · exact le_trans (not_lt.mp h2) (le_max_left _ _)
  · intro m score entities vw vh maxE h1 h2
    unfold EntityCuller.cullEntities
    rw [if_pos ⟨h1, h2⟩]
  · intro m score entities vw vh maxE hbr hle
    unfold EntityCuller.cullEntities
    rw [if_neg hbr]
    dsimp only
    rw [if_pos hle]

/-- Witness for C9 (amended): a monitor in culling mode
(`cullingEnabled`, 100 reported entities over a cap of 30) bounds the
result; a disabled monitor with no max returns the 61-element input
unchanged; and with 2 active entities under the cap the full active
set comes back. -/
theorem cull_bound_amended_witness :
    let e1 : CullableEntity := ⟨⟨10, 10⟩, true, none⟩
    let e2 : CullableEntity := ⟨⟨700, 20⟩, false, some 1⟩
    let mcull : MonitorCullState := ⟨true, 100, 30⟩
    let moff : MonitorCullState := ⟨false, 61, 60⟩
    ((EntityCuller.cullEntities mcull (fun _ => 0) [e1, e2, e1] 800 600
        none).length ≤ max (effectiveMaxCount mcull none) 30) ∧
    (EntityCuller.cullEntities moff (fun _ => 0) (List.replicate 61 e1) 800 600
        none = List.replicate 61 e1) ∧
    (EntityCuller.cullEntities mcull (fun _ => 0) [e1, e2, e1] 800 600 none
      = [e1, e2, e1].filter (·.active)) := by
  refine ⟨?_, ?_, ?_⟩
  · exact cull_bound_amended.1 ⟨true, 100, 30⟩ (fun _ => 0) _ 800 600 none
      (by norm_num [PerformanceMonitor.shouldCullEntities])
  · exact cull_bound_amended.2.1 ⟨false, 61, 60⟩ (fun _ => 0) _ 800 600 none
      (by norm_num [PerformanceMonitor.shouldCullEntities]) rfl
  · exact cull_bound_amended.2.2 ⟨true, 100, 30⟩ (fun _ => 0) _ 800 600 none
      (by norm_num [PerformanceMonitor.shouldCullEntities])
      (by norm_num [effectiveMaxCount, List.filter])

end EndlessHorde
